import Mathlib

/-!
Verification of the action/instruction alignment core of the
video-understanding system (`src/ai_agent.py`, `src/live_analyzer.py`,
`src/analyzer.py`, `src/models.py`).

Timestamps, scores and thresholds are embedded as rationals (`ℚ`): all the
arithmetic the core performs on them (comparisons, subtraction, division of
small integer counts) is exact at the scales involved, so the rational
embedding is faithful.  Free text is embedded as `String`; tokenisation
mirrors Python's `str.lower().split()` (split on whitespace runs, drop
empties, collapse duplicates).  `Char.toLower` only folds ASCII letters while
Python's `str.lower` is Unicode aware; every description the theorems below
evaluate is ASCII, and the general theorems (symmetry, identity) do not
depend on the case map, so the difference is immaterial here.

The one external library boundary inside the matcher is Python's `re`
module: `match_with_instruction` applies a fixed per-step pattern to the
model's reply with `re.search`, and, on its optional second group, a fixed
time pattern followed by `float` conversion.  That decoding layer is
embedded as a per-step oracle `parse : Int → ParseOutcome` (see
`ParseOutcome`): a fixed reply string induces one such function, and every
theorem quantifying over replies quantifies over the oracle instead, which
covers all replies.  Counterexamples instantiate the oracle only at values
realised by concrete reply strings, spelled out at the theorem.
-/

attribute [local semireducible] Rat.mul Rat.sub Rat.add Rat.inv Rat.ofScientific

namespace VideoUnderstanding

/-- `models.InstructionStep` (src/models.py): one checklist entry. -/
structure InstructionStep where
  step_number : Int
  description : String
  expected_duration_seconds : Option ℚ := none
  critical : Bool := false
deriving DecidableEq

/-- `models.Instruction` (src/models.py). -/
structure Instruction where
  title : String
  steps : List InstructionStep
deriving DecidableEq

/-- `models.DetectedAction` (src/models.py). -/
structure DetectedAction where
  description : String
  timestamp_start : ℚ
  timestamp_end : ℚ
  confidence : ℚ
deriving DecidableEq

/-- `models.ActionMatch` (src/models.py). -/
structure ActionMatch where
  step_number : Int
  matched : Bool
  detected_action : Option DetectedAction := none
  deviation : Option String := none
deriving DecidableEq

/-- Whitespace splitter over a character list: cuts on whitespace runs and
never emits an empty word, exactly as Python's no-argument `str.split`.
`buf` holds the characters of the word in progress, in reverse. -/
def splitWsAux : List Char → List Char → List String
  | buf, [] => if buf.isEmpty then [] else [⟨buf.reverse⟩]
  | buf, c :: cs =>
    if c.isWhitespace then
      if buf.isEmpty then splitWsAux [] cs
      else ⟨buf.reverse⟩ :: splitWsAux [] cs
    else splitWsAux (c :: buf) cs

/-- Python `text.split()` (no separator argument). -/
def splitWhitespace (cs : List Char) : List String :=
  splitWsAux [] cs

/-- Token set of a description: `set(text.lower().split())` as used by
`VideoAnalysisAgent._calculate_match_score` and
`VideoAnalysisAgent._are_similar_descriptions` (src/ai_agent.py:198-199,
347-348).  The `set` constructor collapses duplicates; `Char.toLower` is the
ASCII case fold discussed in the header. -/
def tokenSet (s : String) : Finset String :=
  (splitWhitespace (s.toList.map Char.toLower)).toFinset

/-- `VideoAnalysisAgent._calculate_match_score` (src/ai_agent.py:345-356):
Jaccard overlap of the two token sets, `0` when either set is empty. -/
def calculate_match_score (instruction_desc : String) (action_desc : String) : ℚ :=
  let words1 := tokenSet instruction_desc
  let words2 := tokenSet action_desc
  if words1 = ∅ ∨ words2 = ∅ then 0
  else ((words1 ∩ words2).card : ℚ) / ((words1 ∪ words2).card : ℚ)

/-- `VideoAnalysisAgent._are_similar_descriptions` (src/ai_agent.py:196-207):
`True` exactly when the Jaccard overlap strictly exceeds `0.5`. -/
def are_similar_descriptions (desc1 : String) (desc2 : String) : Bool :=
  let words1 := tokenSet desc1
  let words2 := tokenSet desc2
  if words1 = ∅ ∨ words2 = ∅ then false
  else decide ((0.5 : ℚ) < ((words1 ∩ words2).card : ℚ) / ((words1 ∪ words2).card : ℚ))

/-- Loop body of `VideoAnalysisAgent._merge_similar_actions`
(src/ai_agent.py:182-192): `last` is the open interval `merged[-1]`; absorbing
an action mutates `merged[-1].timestamp_end` in place, which is modelled by
recursing with the updated record. -/
def mergeAux (last : DetectedAction) : List DetectedAction → List DetectedAction
  | [] => [last]
  | action :: rest =>
    let time_gap := action.timestamp_start - last.timestamp_end
    if time_gap < 10 ∧ are_similar_descriptions last.description action.description then
      mergeAux { last with timestamp_end := action.timestamp_end } rest
    else
      last :: mergeAux action rest

/-- `VideoAnalysisAgent._merge_similar_actions` (src/ai_agent.py:175-194). -/
def merge_similar_actions : List DetectedAction → List DetectedAction
  | [] => []
  | a :: rest => mergeAux a rest

/-- Modelled from the spec's words (§4.2, claim C6), for comparison against
`merge_similar_actions`: "If `gap < 10 seconds` AND
`TextSimilarityScorer.score(current.description, action.description) > 0.5`,
extend `current.timestamp_end` to `action.timestamp_end`; otherwise close
`current` into the output and start a new current interval from `action`." -/
def mergeSpecAux (current : DetectedAction) : List DetectedAction → List DetectedAction
  | [] => [current]
  | action :: rest =>
    let gap := action.timestamp_start - current.timestamp_end
    if gap < 10 ∧ (0.5 : ℚ) < calculate_match_score current.description action.description then
      mergeSpecAux { current with timestamp_end := action.timestamp_end } rest
    else
      current :: mergeSpecAux action rest

/-- Modelled from the spec's words (§4.2): the full merge walk, empty input
giving empty output. -/
def mergeSpec : List DetectedAction → List DetectedAction
  | [] => []
  | a :: rest => mergeSpecAux a rest

/-- The part of a merged interval that the merge pass never mutates:
description and start time (only `timestamp_end` is written in place). -/
def mergeKey (a : DetectedAction) : String × ℚ :=
  (a.description, a.timestamp_start)

/-- Outcome of the per-step decoding of the model reply inside
`VideoAnalysisAgent.match_with_instruction` (src/ai_agent.py:277-294):
`re.search` of the pattern `Шаг N: (DA|NET|YES|NO|ДА|НЕТ) - [range] - comment`
(case-insensitive, multiline) followed, on the second group, by the time
pattern and `float` conversion.
* `failed` — the reply has no line matching the pattern for this step.
* `parsed status timeRange comment` — the pattern matched; `status` is
  group(1) after `.upper()` (so one of the six uppercase tokens);
  `timeRange = some (s, e)` exactly when group(2) was present and the inner
  time pattern extracted numbers from it, with `e = s` when only one number
  appears; `comment` is group(3) when non-empty. -/
inductive ParseOutcome where
  | failed
  | parsed (status : String) (timeRange : Option (ℚ × ℚ)) (comment : Option String)
deriving DecidableEq

/-- The `status in ['DA', 'YES', 'ДА']` test (src/ai_agent.py:282). -/
def yesTokens : List String := ["DA", "YES", "ДА"]

/-- First loop of the time-range resolution (src/ai_agent.py:296-304):
best positive temporal overlap, strict improvement only, first seen wins. -/
def bestOverlapAux (start_time end_time : ℚ) :
    List DetectedAction → ℚ → Option DetectedAction → Option DetectedAction
  | [], _, best_match => best_match
  | action :: rest, best_overlap, best_match =>
    let overlap_start := max action.timestamp_start start_time
    let overlap_end := min action.timestamp_end end_time
    let overlap := max 0 (overlap_end - overlap_start)
    if best_overlap < overlap then
      bestOverlapAux start_time end_time rest overlap (some action)
    else
      bestOverlapAux start_time end_time rest best_overlap best_match

/-- `distance < min_distance` where `none` stands for `float('inf')`. -/
def ltInf (d : ℚ) : Option ℚ → Bool
  | none => true
  | some m => decide (d < m)

/-- Second loop of the time-range resolution (src/ai_agent.py:306-318):
an action whose interval contains `start_time` wins outright (the `break`),
otherwise the action minimising the smaller endpoint distance wins, provided
that distance is under 30 seconds. -/
def proximityAux (start_time end_time : ℚ) :
    List DetectedAction → Option ℚ → Option DetectedAction → Option DetectedAction
  | [], _, best_match => best_match
  | action :: rest, min_distance, best_match =>
    if action.timestamp_start ≤ start_time ∧ start_time ≤ action.timestamp_end then
      some action
    else
      let distance := min |action.timestamp_start - start_time| |action.timestamp_end - end_time|
      if ltInf distance min_distance ∧ distance < 30 then
        proximityAux start_time end_time rest (some distance) (some action)
      else
        proximityAux start_time end_time rest min_distance best_match

/-- Full time-range resolution (src/ai_agent.py:296-318): overlap loop, then,
when it found nothing or the range is a single instant, the proximity loop. -/
def resolve_best_match (detected_actions : List DetectedAction)
    (start_time end_time : ℚ) : Option DetectedAction :=
  let best_match := bestOverlapAux start_time end_time detected_actions 0 none
  if best_match = none ∨ start_time = end_time then
    proximityAux start_time end_time detected_actions none best_match
  else best_match

/-- Fallback loop on parse failure (src/ai_agent.py:325-330): running maximum
of similarity scores, strict improvement only. -/
def fallbackFold (step_desc : String) :
    List DetectedAction → ℚ → Option DetectedAction → ℚ × Option DetectedAction
  | [], best_score, best_match => (best_score, best_match)
  | action :: rest, best_score, best_match =>
    let score := calculate_match_score step_desc action.description
    if best_score < score then fallbackFold step_desc rest score (some action)
    else fallbackFold step_desc rest best_score best_match

/-- The fallback loop started from `best_score = 0`, `best_match = None`. -/
def fallbackBest (step_desc : String) (detected_actions : List DetectedAction) :
    ℚ × Option DetectedAction :=
  fallbackFold step_desc detected_actions 0 none

/-- One iteration of the per-step loop of
`VideoAnalysisAgent.match_with_instruction` (src/ai_agent.py:272-341),
given the decoding outcome for this step's line of the reply. -/
def processStep (detected_actions : List DetectedAction) (step : InstructionStep) :
    ParseOutcome → ActionMatch
  | ParseOutcome.parsed status timeRange comment =>
    let matched : Bool := decide (status ∈ yesTokens)
    let best_match : Option DetectedAction :=
      if matched then
        match timeRange with
        | some (start_time, end_time) =>
          resolve_best_match detected_actions start_time end_time
        | none => none
      else none
    { step_number := step.step_number
      matched := matched
      detected_action := if matched then best_match else none
      deviation := if matched then none else comment.map String.trim }
  | ParseOutcome.failed =>
    let bs_bm := fallbackBest step.description detected_actions
    let matched : Bool := decide ((0.25 : ℚ) < bs_bm.1)
    { step_number := step.step_number
      matched := matched
      detected_action := if matched then bs_bm.2 else none
      deviation := if matched then none else some "Действие не обнаружено" }

/-- `VideoAnalysisAgent.match_with_instruction` (src/ai_agent.py:209-343):
one `ActionMatch` per instruction step, in step order; `parse` is the
reply-decoding oracle described at `ParseOutcome`. -/
def match_with_instruction (parse : Int → ParseOutcome)
    (detected_actions : List DetectedAction) (instruction : Instruction) :
    List ActionMatch :=
  instruction.steps.map (fun step => processStep detected_actions step (parse step.step_number))

/-- The `missing_steps` computation of `analyze_video` (src/analyzer.py:65-69):
step numbers of the unmatched matches. -/
def missing_steps (action_matches : List ActionMatch) : List Int :=
  (action_matches.filter (fun m => !m.matched)).map (fun m => m.step_number)

/-- The result dictionary returned by `LiveAnalyzer._check_instruction_compliance`
(src/live_analyzer.py:82-168): one optional field per key that only some of
the five dictionaries carry; `none` models an absent key. -/
structure ComplianceResult where
  status : String
  message : String
  current_step : Option Int := none
  expected_next : Option Int := none
  detected_step : Option Int := none
  warnings : List String := []
  progress : Option String := none
  completed : Option Bool := none
deriving DecidableEq

/-- The mutable tracking state of `LiveAnalyzer` (src/live_analyzer.py:35-43). -/
structure LiveState where
  current_step : Nat
  completed_steps : List Int
  last_analysis_time : ℚ
  current_action : Option DetectedAction
  warnings : List String
  action_history : List DetectedAction
deriving DecidableEq

/-- The state installed by `LiveAnalyzer.__init__` (src/live_analyzer.py:35-43). -/
def initLiveState : LiveState :=
  { current_step := 0, completed_steps := [], last_analysis_time := 0,
    current_action := none, warnings := [], action_history := [] }

/-- The `f"{len(completed)}/{len(steps)}"` progress string. -/
def progressText (completed total : Nat) : String :=
  toString completed ++ "/" ++ toString total

/-- Out-of-order scan (src/live_analyzer.py:137-150): walk `enumerate(steps)`
with running index `i`, skip indices at or below the cursor, return the first
later step whose description scores above `0.3` against the observation. -/
def findOutOfOrderAux (current_step : Nat) (desc : String) :
    Nat → List InstructionStep → Option InstructionStep
  | _, [] => none
  | i, step :: rest =>
    if current_step < i ∧ (0.3 : ℚ) < calculate_match_score step.description desc then
      some step
    else findOutOfOrderAux current_step desc (i + 1) rest

/-- The out-of-order scan started at index `0`. -/
def findOutOfOrder (steps : List InstructionStep) (current_step : Nat) (desc : String) :
    Option InstructionStep :=
  findOutOfOrderAux current_step desc 0 steps

/-- `LiveAnalyzer._check_instruction_compliance` (src/live_analyzer.py:82-168),
returning the possibly mutated state together with the result dictionary. -/
def check_instruction_compliance (instr : Instruction) (st : LiveState) :
    LiveState × ComplianceResult :=
  match st.current_action with
  | none =>
    (st, { status := "waiting", message := "Ожидание действий...",
           current_step := none, warnings := [] })
  | some current_action =>
    if h : st.current_step < instr.steps.length then
      let expected_step := instr.steps.get ⟨st.current_step, h⟩
      let match_score :=
        calculate_match_score expected_step.description current_action.description
      if (0.3 : ℚ) < match_score then
        let st2 : LiveState := { st with
          completed_steps := st.completed_steps ++ [expected_step.step_number],
          current_step := st.current_step + 1 }
        (st2,
          { status := "step_completed"
            message := "✓ Шаг " ++ toString expected_step.step_number ++ " выполнен: "
              ++ expected_step.description
            current_step := some expected_step.step_number
            expected_next := (instr.steps.get? st2.current_step).map (fun s => s.step_number)
            warnings := []
            progress := some (progressText st2.completed_steps.length instr.steps.length) })
      else
        match findOutOfOrder instr.steps st.current_step current_action.description with
        | some step =>
          let warning := "⚠ ВНИМАНИЕ: Выполняется шаг " ++ toString step.step_number
            ++ " вместо шага " ++ toString expected_step.step_number ++ "!"
          ({ st with warnings := st.warnings ++ [warning] },
            { status := "warning"
              message := warning
              current_step := some expected_step.step_number
              detected_step := some step.step_number
              warnings := [warning]
              progress := some (progressText st.completed_steps.length instr.steps.length) })
        | none =>
          (st,
            { status := "in_progress"
              message := "Ожидается: Шаг " ++ toString expected_step.step_number ++ " - "
                ++ expected_step.description
              current_step := some expected_step.step_number
              warnings := []
              progress := some (progressText st.completed_steps.length instr.steps.length) })
    else
      (st, { status := "completed", message := "✓ Все шаги инструкции выполнены!",
             current_step := none, warnings := st.warnings, completed := some true })

/-- `LiveAnalyzer.analyze_frame` (src/live_analyzer.py:52-80).  The external
model call `self.agent.analyze_frame(frame_base64, timestamp)` returns the
free-text `description` of the frame, which is taken as input here: the frame
bytes influence the tracker only through that returned text. -/
def analyze_frame (instr : Instruction) (description : String) (timestamp : ℚ)
    (st : LiveState) : LiveState × ComplianceResult :=
  let current_action : DetectedAction :=
    { description := description, timestamp_start := timestamp,
      timestamp_end := timestamp, confidence := 0.8 }
  let st1 : LiveState :=
    { st with
        current_action := some current_action,
        action_history := st.action_history ++ [current_action] }
  let result := check_instruction_compliance instr st1
  ({ result.1 with last_analysis_time := timestamp }, result.2)

/-- A whole live session: fold `analyze_frame` over a sequence of observed
(description, timestamp) frames. -/
def runFrames (instr : Instruction) (obs : List (String × ℚ)) (st : LiveState) :
    LiveState :=
  obs.foldl (fun s o => (analyze_frame instr o.1 o.2 s).1) st

/-- The three actions of the merge-correctness scenario (spec §8, claim C2). -/
def mergeScenarioInput : List DetectedAction :=
  [⟨"mixing", 0, 5, 0.8⟩, ⟨"mixing water", 6, 10, 0.8⟩, ⟨"mixing", 40, 45, 0.8⟩]

/-- Instruction of the fallback scenario (spec §8, claims C1/C3). -/
def moldInstruction : Instruction :=
  ⟨"mold", [⟨1, "prepare mold", none, false⟩, ⟨2, "pour mixture", none, false⟩]⟩

/-- Detected actions of the fallback scenario (spec §8, claim C3). -/
def moldActions : List DetectedAction :=
  [⟨"cleaning and preparing the mold", 0, 15, 0.8⟩,
   ⟨"pouring mixture into mold", 20, 40, 0.8⟩]

end VideoUnderstanding

namespace VideoUnderstanding

/-- C2: the claim asserts the merger yields exactly two intervals on the
scenario input; the code yields three, because the Jaccard overlap of
"mixing" and "mixing water" is exactly `1/2` and `_are_similar_descriptions`
demands a strictly greater value, so the first two actions are not merged. -/
theorem mergeScenario_not_two_intervals :
    (merge_similar_actions mergeScenarioInput).length ≠ 2 := by decide

/-- C2 (amended): on input `[(0,5,"mixing"), (6,10,"mixing water"),
(40,45,"mixing")]` the merger produces exactly the three unmerged intervals,
since `score("mixing","mixing water") = 1/2` is not `> 0.5`. -/
theorem mergeScenario_three_intervals :
    (merge_similar_actions mergeScenarioInput).map
        (fun a => (a.timestamp_start, a.timestamp_end, a.description))
      = [(0, 5, "mixing"), (6, 10, "mixing water"), (40, 45, "mixing")] := by decide

/-- C9: the claim asserts `score(a,a) = 1` for every non-empty text `a`; the
whitespace-only text `" "` is non-empty yet tokenises to the empty set, so the
code returns `0`. -/
theorem score_self_not_one_on_blank :
    (" " : String) ≠ "" ∧ calculate_match_score " " " " = 0
      ∧ calculate_match_score " " " " ≠ 1 := by decide

/-- C9 (amended): the similarity score is symmetric for all pairs of texts,
and `score(a,a) = 1` for every text `a` whose token set is non-empty. -/
theorem score_symm_and_self (a b : String) :
    calculate_match_score a b = calculate_match_score b a
      ∧ (tokenSet a ≠ ∅ → calculate_match_score a a = 1) := by
  constructor
  · unfold calculate_match_score
    by_cases h1 : tokenSet a = ∅
    · by_cases h2 : tokenSet b = ∅ <;> simp [h1, h2]
    · by_cases h2 : tokenSet b = ∅
      · simp [h1, h2]
      · rw [if_neg (by tauto), if_neg (by tauto),
          Finset.inter_comm, Finset.union_comm]
  · intro h
    unfold calculate_match_score
    rw [if_neg (by tauto), Finset.inter_self, Finset.union_self, div_self]
    exact_mod_cast Finset.card_ne_zero_of_mem (Finset.nonempty_iff_ne_empty.mpr h).choose_spec

/-- Witness for the hypothesis of `score_symm_and_self`: the token set of
"mixing" is non-empty and the self-score evaluates to `1`. -/
theorem score_symm_and_self_spot_check :
    tokenSet "mixing" ≠ ∅ ∧ calculate_match_score "mixing" "mixing" = 1 :=
  ⟨by decide, (score_symm_and_self "mixing" "mixing water").2 (by decide)⟩

/-- C1: the claimed equivalence `matched = false ⇔ detected_action absent`
fails.  With no detected actions, the reply line `"Шаг 1: DA -"` matches the
step pattern with verdict group `"DA"`, no time-range group and an empty
trailing group — the oracle value `parsed "DA" none none` below — so the code
sets `matched = True` yet binds no action. -/
theorem no_orphan_equivalence_fails :
    ¬ (∀ m ∈ match_with_instruction (fun _ => ParseOutcome.parsed "DA" none none)
          [] ⟨"mold", [⟨1, "prepare mold", none, false⟩]⟩,
        (m.matched = false ↔ m.detected_action = none)) := by decide

/-- C1 (amended): only the forward direction of the no-orphan invariant holds
in the batch matcher — every produced `ActionMatch` with `matched = false` has
no bound `detected_action`; an `ActionMatch` with `matched = true` and no
bound action is possible. -/
theorem match_matched_false_action_absent (parse : Int → ParseOutcome)
    (detected_actions : List DetectedAction) (instruction : Instruction) :
    ∀ m ∈ match_with_instruction parse detected_actions instruction,
      m.matched = false → m.detected_action = none := by
  intro m hm hfalse
  simp only [match_with_instruction, List.mem_map] at hm
  obtain ⟨step, _, rfl⟩ := hm
  cases hp : parse step.step_number with
  | failed =>
    rw [hp] at hfalse
    simp only [processStep] at hfalse ⊢
    simp [hfalse]
  | parsed status timeRange comment =>
    rw [hp] at hfalse
    simp only [processStep] at hfalse ⊢
    simp [hfalse]

/-- Witness for `match_matched_false_action_absent` at a concrete input:
with the two mold-scenario actions and an unparsable reply, step 1 of the
mold instruction comes out unmatched and indeed carries no action. -/
theorem match_matched_false_action_absent_spot_check :
    (⟨1, false, none, some "Действие не обнаружено"⟩ : ActionMatch)
        ∈ match_with_instruction (fun _ => ParseOutcome.failed) moldActions moldInstruction
      ∧ (⟨1, false, none, some "Действие не обнаружено"⟩ : ActionMatch).detected_action = none :=
  ⟨by decide,
    match_matched_false_action_absent (fun _ => ParseOutcome.failed) moldActions moldInstruction
      ⟨1, false, none, some "Действие не обнаружено"⟩ (by decide) (by decide)⟩

/-- C3: the claim asserts the similarity fallback matches both mold-scenario
steps, giving `missing_steps = []`; in fact "prepare" ≠ "preparing" and
"pour" ≠ "pouring" as tokens, both best scores are `1/5 ≤ 0.25`, and both
steps are reported missing. -/
theorem fallbackScenario_missing_steps_nonempty :
    missing_steps (match_with_instruction (fun _ => ParseOutcome.failed)
        moldActions moldInstruction) ≠ [] := by decide

/-- Invariants of the fallback loop: the running maximum bounds every score
seen, never decreases, and the running best action either is the initial pair
unchanged or comes from the list and attains the running maximum. -/
theorem fallbackFold_spec (step_desc : String) :
    ∀ (l : List DetectedAction) (bs : ℚ) (bm : Option DetectedAction),
      (∀ a ∈ l, calculate_match_score step_desc a.description ≤ (fallbackFold step_desc l bs bm).1)
      ∧ bs ≤ (fallbackFold step_desc l bs bm).1
      ∧ (((fallbackFold step_desc l bs bm).2 = bm ∧ (fallbackFold step_desc l bs bm).1 = bs)
          ∨ ∃ a ∈ l, (fallbackFold step_desc l bs bm).2 = some a
              ∧ (fallbackFold step_desc l bs bm).1 = calculate_match_score step_desc a.description) := by
  intro l
  induction l with
  | nil => intro bs bm; exact ⟨by simp, le_refl _, Or.inl ⟨rfl, rfl⟩⟩
  | cons a rest ih =>
    intro bs bm
    simp only [fallbackFold]
    by_cases h : bs < calculate_match_score step_desc a.description
    · rw [if_pos h]
      obtain ⟨h1, h2, h3⟩ := ih (calculate_match_score step_desc a.description) (some a)
      refine ⟨?_, le_trans (le_of_lt h) h2, ?_⟩
      · intro x hx
        rcases List.mem_cons.mp hx with rfl | hx
        · exact h2
        · exact h1 x hx
      · rcases h3 with ⟨e1, e2⟩ | ⟨x, hx, e1, e2⟩
        · exact Or.inr ⟨a, List.mem_cons_self a rest, e1, e2⟩
        · exact Or.inr ⟨x, List.mem_cons_of_mem a hx, e1, e2⟩
    · rw [if_neg h]
      obtain ⟨h1, h2, h3⟩ := ih bs bm
      push_neg at h
      refine ⟨?_, h2, ?_⟩
      · intro x hx
        rcases List.mem_cons.mp hx with rfl | hx
        · exact le_trans h h2
        · exact h1 x hx
      · rcases h3 with ⟨e1, e2⟩ | ⟨x, hx, e1, e2⟩
        · exact Or.inl ⟨e1, e2⟩
        · exact Or.inr ⟨x, List.mem_cons_of_mem a hx, e1, e2⟩

/-- C7: on parse failure the matcher scores every detected action against the
step description, `matched` is exactly `best_score > 0.25`, a bound action is
a maximum-scoring member of the list and is bound only when matched, and an
unmatched step records the localized deviation "Действие не обнаружено" —
the outcome is always a plain `ActionMatch`, never an error. -/
theorem fallback_path_characterization (detected_actions : List DetectedAction)
    (step : InstructionStep) :
    (∀ a ∈ detected_actions,
        calculate_match_score step.description a.description
          ≤ (fallbackBest step.description detected_actions).1)
    ∧ (processStep detected_actions step ParseOutcome.failed).matched
        = decide ((0.25 : ℚ) < (fallbackBest step.description detected_actions).1)
    ∧ ((processStep detected_actions step ParseOutcome.failed).matched = true →
        ∃ a ∈ detected_actions,
          (processStep detected_actions step ParseOutcome.failed).detected_action = some a
          ∧ (fallbackBest step.description detected_actions).1
              = calculate_match_score step.description a.description)
    ∧ ((processStep detected_actions step ParseOutcome.failed).matched = false →
        (processStep detected_actions step ParseOutcome.failed).detected_action = none
        ∧ (processStep detected_actions step ParseOutcome.failed).deviation
            = some "Действие не обнаружено") := by
  obtain ⟨h1, h2, h3⟩ := fallbackFold_spec step.description detected_actions 0 none
  refine ⟨h1, rfl, ?_, ?_⟩
  · intro hm
    simp only [processStep, decide_eq_true_eq] at hm
    rcases h3 with ⟨e1, e2⟩ | ⟨x, hx, e1, e2⟩
    · rw [fallbackBest, e2] at hm
      norm_num at hm
    · refine ⟨x, hx, ?_, e2⟩
      simp only [processStep]
      rw [if_pos (by simp only [decide_eq_true_eq]; exact hm)]
      exact e1
  · intro hm
    simp only [processStep] at hm ⊢
    simp [hm]

/-- Witness for `fallback_path_characterization`: with the single action
"prepare mold" and the step "prepare mold", the fallback scores it `1`,
`matched` comes out true, and the action itself is bound. -/
theorem fallback_path_characterization_spot_check :
    (processStep [⟨"prepare mold", 0, 5, 0.8⟩] ⟨1, "prepare mold", none, false⟩
        ParseOutcome.failed).matched = true
    ∧ ∃ a ∈ [(⟨"prepare mold", 0, 5, 0.8⟩ : DetectedAction)],
        (processStep [⟨"prepare mold", 0, 5, 0.8⟩] ⟨1, "prepare mold", none, false⟩
            ParseOutcome.failed).detected_action = some a
        ∧ (fallbackBest "prepare mold" [⟨"prepare mold", 0, 5, 0.8⟩]).1
            = calculate_match_score "prepare mold" a.description :=
  ⟨by decide,
    (fallback_path_characterization [⟨"prepare mold", 0, 5, 0.8⟩]
      ⟨1, "prepare mold", none, false⟩).2.2.1 (by decide)⟩

/-- C3 (amended): with the reply unparsable for both step lines, the fallback
leaves both mold-scenario steps unmatched (best scores `1/5` each, not above
the `0.25` threshold), so `missing_steps = [1, 2]`. -/
theorem fallbackScenario_both_unmatched :
    (match_with_instruction (fun _ => ParseOutcome.failed) moldActions
        moldInstruction).map (fun m => m.matched) = [false, false]
      ∧ missing_steps (match_with_instruction (fun _ => ParseOutcome.failed)
          moldActions moldInstruction) = [1, 2] := by decide

/-- `_check_instruction_compliance` never touches the frame-recording fields:
`action_history` and `current_action` pass through unchanged. -/
theorem check_frame_fields (instr : Instruction) (st : LiveState) :
    (check_instruction_compliance instr st).1.action_history = st.action_history
    ∧ (check_instruction_compliance instr st).1.current_action = st.current_action := by
  unfold check_instruction_compliance
  dsimp only
  repeat' split
  all_goals exact ⟨rfl, rfl⟩

/-- `_check_instruction_compliance` either leaves cursor and completed list
unchanged, or (only when the cursor is in range) advances the cursor by one
and appends one step number to the completed list. -/
theorem check_cases (instr : Instruction) (st : LiveState) :
    ((check_instruction_compliance instr st).1.current_step = st.current_step
      ∧ (check_instruction_compliance instr st).1.completed_steps = st.completed_steps)
    ∨ (st.current_step < instr.steps.length
      ∧ (check_instruction_compliance instr st).1.current_step = st.current_step + 1
      ∧ ∃ x, (check_instruction_compliance instr st).1.completed_steps
          = st.completed_steps ++ [x]) := by
  unfold check_instruction_compliance
  dsimp only
  repeat' split
  all_goals first
    | exact Or.inl ⟨rfl, rfl⟩
    | exact Or.inr ⟨by assumption, rfl, _, rfl⟩

/-- C10: every `analyze_frame` call, in every state, appends exactly one
observation `(description, t, t, 0.8)` to `action_history`, points
`current_action` at it, and stamps `last_analysis_time` with the frame's
timestamp. -/
theorem analyze_frame_records_observation (instr : Instruction) (st : LiveState)
    (description : String) (timestamp : ℚ) :
    ((analyze_frame instr description timestamp st).1).action_history
        = st.action_history ++ [⟨description, timestamp, timestamp, 0.8⟩]
    ∧ ((analyze_frame instr description timestamp st).1).current_action
        = some ⟨description, timestamp, timestamp, 0.8⟩
    ∧ ((analyze_frame instr description timestamp st).1).last_analysis_time
        = timestamp := by
  obtain ⟨h1, h2⟩ := check_frame_fields instr
    { st with
        current_action := some ⟨description, timestamp, timestamp, 0.8⟩,
        action_history := st.action_history ++ [⟨description, timestamp, timestamp, 0.8⟩] }
  exact ⟨h1, h2, rfl⟩

/-- `analyze_frame` either leaves cursor and completed list unchanged, or
(only when the cursor is in range) advances the cursor by one and appends one
step number — the compliance-check case split, transferred through the
frame-recording wrapper. -/
theorem analyze_frame_cases (instr : Instruction) (description : String)
    (timestamp : ℚ) (st : LiveState) :
    (((analyze_frame instr description timestamp st).1).current_step = st.current_step
      ∧ ((analyze_frame instr description timestamp st).1).completed_steps
          = st.completed_steps)
    ∨ (st.current_step < instr.steps.length
      ∧ ((analyze_frame instr description timestamp st).1).current_step
          = st.current_step + 1
      ∧ ∃ x, ((analyze_frame instr description timestamp st).1).completed_steps
          = st.completed_steps ++ [x]) :=
  check_cases instr
    { st with
        current_action := some ⟨description, timestamp, timestamp, 0.8⟩,
        action_history := st.action_history ++ [⟨description, timestamp, timestamp, 0.8⟩] }

/-- Single-call progress: the cursor never decreases, stays below
`max st.current_step len(steps)`, and the completed list only grows by a
suffix. -/
theorem analyze_frame_progress (instr : Instruction) (description : String)
    (timestamp : ℚ) (st : LiveState) :
    st.current_step ≤ ((analyze_frame instr description timestamp st).1).current_step
    ∧ ((analyze_frame instr description timestamp st).1).current_step
        ≤ max st.current_step instr.steps.length
    ∧ ∃ t, ((analyze_frame instr description timestamp st).1).completed_steps
        = st.completed_steps ++ t := by
  rcases analyze_frame_cases instr description timestamp st
    with ⟨h1, h2⟩ | ⟨hlt, h1, x, h2⟩
  · exact ⟨le_of_eq h1.symm, by rw [h1]; exact le_max_left _ _, [], by rw [h2]; simp⟩
  · exact ⟨by rw [h1]; omega, by rw [h1]; omega, [x], h2⟩

/-- Session-level progress, by induction over the observation sequence. -/
theorem runFrames_progress (instr : Instruction) (obs : List (String × ℚ)) :
    ∀ st : LiveState,
      st.current_step ≤ (runFrames instr obs st).current_step
      ∧ (runFrames instr obs st).current_step ≤ max st.current_step instr.steps.length
      ∧ ∃ t, (runFrames instr obs st).completed_steps = st.completed_steps ++ t := by
  induction obs with
  | nil => exact fun st => ⟨le_refl _, le_max_left _ _, [], by simp [runFrames]⟩
  | cons o rest ih =>
    intro st
    obtain ⟨a1, a2, t1, e1⟩ := analyze_frame_progress instr o.1 o.2 st
    obtain ⟨b1, b2, t2, e2⟩ := ih ((analyze_frame instr o.1 o.2 st).1)
    have hr : runFrames instr (o :: rest) st
        = runFrames instr rest ((analyze_frame instr o.1 o.2 st).1) := rfl
    rw [hr]
    refine ⟨le_trans a1 b1, by omega, t1 ++ t2, by rw [e2, e1, List.append_assoc]⟩

/-- In the terminal state (cursor at or past the number of steps) a single
`analyze_frame` call reports `completed` and leaves cursor and completed
list untouched. -/
theorem analyze_frame_terminal (instr : Instruction) (description : String)
    (timestamp : ℚ) (st : LiveState) (h : instr.steps.length ≤ st.current_step) :
    (analyze_frame instr description timestamp st).2.status = "completed"
    ∧ ((analyze_frame instr description timestamp st).1).current_step = st.current_step
    ∧ ((analyze_frame instr description timestamp st).1).completed_steps
        = st.completed_steps := by
  have hn : ¬ (st.current_step < instr.steps.length) := Nat.not_lt.mpr h
  unfold analyze_frame check_instruction_compliance
  dsimp only
  rw [dif_neg hn]
  exact ⟨rfl, rfl, rfl⟩

/-- The terminal state persists across any further observation sequence. -/
theorem runFrames_terminal (instr : Instruction) (obs : List (String × ℚ)) :
    ∀ st : LiveState, instr.steps.length ≤ st.current_step →
      (runFrames instr obs st).current_step = st.current_step
      ∧ (runFrames instr obs st).completed_steps = st.completed_steps := by
  induction obs with
  | nil => exact fun st _ => ⟨rfl, rfl⟩
  | cons o rest ih =>
    intro st h
    obtain ⟨-, e1, e2⟩ := analyze_frame_terminal instr o.1 o.2 st h
    obtain ⟨f1, f2⟩ := ih ((analyze_frame instr o.1 o.2 st).1) (by rw [e1]; exact h)
    have hr : runFrames instr (o :: rest) st
        = runFrames instr rest ((analyze_frame instr o.1 o.2 st).1) := rfl
    rw [hr]
    exact ⟨f1.trans e1, f2.trans e2⟩

/-- C5: once the cursor has reached the number of instruction steps, every
further `analyze_frame` call emits the `completed` status and never mutates
`completed_steps` or `current_step` — and the terminal state is absorbing
over any further observation sequence. -/
theorem terminal_state_absorbing (instr : Instruction) (st : LiveState)
    (description : String) (timestamp : ℚ) (obs : List (String × ℚ))
    (h : instr.steps.length ≤ st.current_step) :
    (analyze_frame instr description timestamp st).2.status = "completed"
    ∧ ((analyze_frame instr description timestamp st).1).current_step = st.current_step
    ∧ ((analyze_frame instr description timestamp st).1).completed_steps
        = st.completed_steps
    ∧ (runFrames instr obs st).current_step = st.current_step
    ∧ (runFrames instr obs st).completed_steps = st.completed_steps := by
  obtain ⟨e0, e1, e2⟩ := analyze_frame_terminal instr description timestamp st h
  obtain ⟨f1, f2⟩ := runFrames_terminal instr obs st h
  exact ⟨e0, e1, e2, f1, f2⟩

/-- Witness for the hypothesis of `terminal_state_absorbing`: a session over
the two-step mold instruction whose cursor already reached 2. -/
theorem terminal_state_absorbing_spot_check :
    (moldInstruction.steps.length
        ≤ (⟨2, [1, 2], 0, none, [], []⟩ : LiveState).current_step)
    ∧ ((analyze_frame moldInstruction "x" 5 ⟨2, [1, 2], 0, none, [], []⟩).2.status
          = "completed"
      ∧ ((analyze_frame moldInstruction "x" 5 ⟨2, [1, 2], 0, none, [], []⟩).1).current_step
          = (⟨2, [1, 2], 0, none, [], []⟩ : LiveState).current_step
      ∧ ((analyze_frame moldInstruction "x" 5 ⟨2, [1, 2], 0, none, [], []⟩).1).completed_steps
          = (⟨2, [1, 2], 0, none, [], []⟩ : LiveState).completed_steps
      ∧ (runFrames moldInstruction [("y", 9)] ⟨2, [1, 2], 0, none, [], []⟩).current_step
          = (⟨2, [1, 2], 0, none, [], []⟩ : LiveState).current_step
      ∧ (runFrames moldInstruction [("y", 9)] ⟨2, [1, 2], 0, none, [], []⟩).completed_steps
          = (⟨2, [1, 2], 0, none, [], []⟩ : LiveState).completed_steps) :=
  ⟨by decide,
    terminal_state_absorbing moldInstruction ⟨2, [1, 2], 0, none, [], []⟩ "x" 5
      [("y", 9)] (by decide)⟩

/-- Soundness of the out-of-order scan: a returned step sits at a list index
strictly above the cursor (relative to the running start index) and scores
above `0.3` against the observation. -/
theorem findOutOfOrderAux_sound (current_step : Nat) (desc : String) :
    ∀ (l : List InstructionStep) (i0 : Nat) (s : InstructionStep),
      findOutOfOrderAux current_step desc i0 l = some s →
      ∃ k, ∃ hk : k < l.length, current_step < i0 + k ∧ s = l.get ⟨k, hk⟩
        ∧ (0.3 : ℚ) < calculate_match_score s.description desc := by
  intro l
  induction l with
  | nil => intro i0 s hs; simp [findOutOfOrderAux] at hs
  | cons a rest ih =>
    intro i0 s hs
    simp only [findOutOfOrderAux] at hs
    split at hs
    · rename_i hcond
      cases hs
      exact ⟨0, by simp, by omega, by simp, hcond.2⟩
    · obtain ⟨k, hk, hlt, he, hsc⟩ := ih (i0 + 1) s hs
      exact ⟨k + 1, by simpa using hk, by omega, by simpa using he, hsc⟩

/-- Completeness of the out-of-order scan: if some step strictly above the
cursor scores above `0.3`, the scan returns a step. -/
theorem findOutOfOrderAux_isSome (current_step : Nat) (desc : String) :
    ∀ (l : List InstructionStep) (i0 j : Nat) (hj : j < l.length),
      current_step < i0 + j →
      (0.3 : ℚ) < calculate_match_score (l.get ⟨j, hj⟩).description desc →
      ∃ s, findOutOfOrderAux current_step desc i0 l = some s := by
  intro l
  induction l with
  | nil => intro i0 j hj _ _; simp at hj
  | cons a rest ih =>
    intro i0 j hj hlt hsc
    simp only [findOutOfOrderAux]
    split
    · exact ⟨a, rfl⟩
    · rename_i hcond
      cases j with
      | zero => exact absurd ⟨by omega, by simpa using hsc⟩ hcond
      | succ k => exact ih (i0 + 1) k (by simpa using hj) (by omega) (by simpa using hsc)

/-- C8: when the observation scores at most `0.3` against the expected step
but strictly above `0.3` against some step after the cursor, `analyze_frame`
emits the `warning` status referencing the expected step and a detected
future step (itself past the cursor and scoring above `0.3`), records the
out-of-order warning string both in the emitted result (its `message` and its
`warnings` list) and by appending it to the tracker's `warnings`, does not
advance the cursor, and adds nothing to the completed list. -/
theorem out_of_order_emits_warning (instr : Instruction) (st : LiveState)
    (description : String) (timestamp : ℚ)
    (h : st.current_step < instr.steps.length)
    (hexp : calculate_match_score
        (instr.steps.get ⟨st.current_step, h⟩).description description ≤ 0.3)
    (j : Nat) (hj : j < instr.steps.length) (hcs : st.current_step < j)
    (hfut : (0.3 : ℚ) < calculate_match_score
        (instr.steps.get ⟨j, hj⟩).description description) :
    (analyze_frame instr description timestamp st).2.status = "warning"
    ∧ (analyze_frame instr description timestamp st).2.current_step
        = some (instr.steps.get ⟨st.current_step, h⟩).step_number
    ∧ (∃ k, ∃ hk : k < instr.steps.length, st.current_step < k
        ∧ (0.3 : ℚ) < calculate_match_score
            (instr.steps.get ⟨k, hk⟩).description description
        ∧ (analyze_frame instr description timestamp st).2.detected_step
            = some (instr.steps.get ⟨k, hk⟩).step_number
        ∧ (analyze_frame instr description timestamp st).2.message
            = "⚠ ВНИМАНИЕ: Выполняется шаг "
              ++ toString (instr.steps.get ⟨k, hk⟩).step_number
              ++ " вместо шага "
              ++ toString (instr.steps.get ⟨st.current_step, h⟩).step_number ++ "!"
        ∧ (analyze_frame instr description timestamp st).2.warnings
            = [(analyze_frame instr description timestamp st).2.message]
        ∧ ((analyze_frame instr description timestamp st).1).warnings
            = st.warnings ++ [(analyze_frame instr description timestamp st).2.message])
    ∧ ((analyze_frame instr description timestamp st).1).current_step = st.current_step
    ∧ ((analyze_frame instr description timestamp st).1).completed_steps
        = st.completed_steps := by
  obtain ⟨s, hs⟩ := findOutOfOrderAux_isSome st.current_step description instr.steps 0 j hj
    (by omega) hfut
  obtain ⟨k, hk, hlt, he, hsc⟩ := findOutOfOrderAux_sound st.current_step description
    instr.steps 0 s hs
  have hs' : findOutOfOrder instr.steps st.current_step description = some s := hs
  have hn : ¬ ((0.3 : ℚ) < calculate_match_score
      (instr.steps.get ⟨st.current_step, h⟩).description description) := not_lt.mpr hexp
  unfold analyze_frame check_instruction_compliance
  dsimp only
  rw [dif_pos h]
  rw [if_neg hn, hs']
  refine ⟨rfl, rfl, ⟨k, hk, by omega, ?_, ?_, ?_, rfl, rfl⟩, rfl, rfl⟩
  · rw [← he]; exact hsc
  · rw [← he]
  · rw [← he]

/-- Witness for the hypotheses of `out_of_order_emits_warning`: a fresh
tracker on the mold instruction observing "pour mixture" — step 1 scores `0`,
step 2 scores `1`. -/
theorem out_of_order_emits_warning_spot_check :
    initLiveState.current_step < moldInstruction.steps.length
    ∧ calculate_match_score
        (moldInstruction.steps.get ⟨initLiveState.current_step, by decide⟩).description
        "pour mixture" ≤ 0.3
    ∧ initLiveState.current_step < 1
    ∧ (0.3 : ℚ) < calculate_match_score
        (moldInstruction.steps.get ⟨1, by decide⟩).description "pour mixture"
    ∧ ((analyze_frame moldInstruction "pour mixture" 0 initLiveState).2.status = "warning"
      ∧ (analyze_frame moldInstruction "pour mixture" 0 initLiveState).2.current_step
          = some ((moldInstruction.steps.get
              ⟨initLiveState.current_step, by decide⟩).step_number)
      ∧ (∃ k, ∃ hk : k < moldInstruction.steps.length, initLiveState.current_step < k
          ∧ (0.3 : ℚ) < calculate_match_score
              (moldInstruction.steps.get ⟨k, hk⟩).description "pour mixture"
          ∧ (analyze_frame moldInstruction "pour mixture" 0 initLiveState).2.detected_step
              = some ((moldInstruction.steps.get ⟨k, hk⟩).step_number)
          ∧ (analyze_frame moldInstruction "pour mixture" 0 initLiveState).2.message
              = "⚠ ВНИМАНИЕ: Выполняется шаг "
                ++ toString ((moldInstruction.steps.get ⟨k, hk⟩).step_number)
                ++ " вместо шага "
                ++ toString ((moldInstruction.steps.get
                    ⟨initLiveState.current_step, by decide⟩).step_number) ++ "!"
          ∧ (analyze_frame moldInstruction "pour mixture" 0 initLiveState).2.warnings
              = [(analyze_frame moldInstruction "pour mixture" 0 initLiveState).2.message]
          ∧ ((analyze_frame moldInstruction "pour mixture" 0 initLiveState).1).warnings
              = initLiveState.warnings
                ++ [(analyze_frame moldInstruction "pour mixture" 0 initLiveState).2.message])
      ∧ ((analyze_frame moldInstruction "pour mixture" 0 initLiveState).1).current_step
          = initLiveState.current_step
      ∧ ((analyze_frame moldInstruction "pour mixture" 0 initLiveState).1).completed_steps
          = initLiveState.completed_steps) :=
  ⟨by decide, by decide, by decide, by decide,
    out_of_order_emits_warning moldInstruction initLiveState "pour mixture" 0
      (by decide) (by decide) 1 (by decide) (by decide) (by decide)⟩

/-- C4: across any two segments of a live session started from the initial
state, the cursor (`current_step`) is non-decreasing and never exceeds the
number of instruction steps, and the completed-steps list is append-only —
the earlier list is a prefix of the later one, so no entry is ever removed or
reordered. -/
theorem live_monotonic_progress (instr : Instruction) (obs1 obs2 : List (String × ℚ)) :
    (runFrames instr obs1 initLiveState).current_step
        ≤ (runFrames instr obs2 (runFrames instr obs1 initLiveState)).current_step
    ∧ (runFrames instr obs2 (runFrames instr obs1 initLiveState)).current_step
        ≤ instr.steps.length
    ∧ ∃ t, (runFrames instr obs2 (runFrames instr obs1 initLiveState)).completed_steps
        = (runFrames instr obs1 initLiveState).completed_steps ++ t := by
  obtain ⟨a1, a2, -⟩ := runFrames_progress instr obs1 initLiveState
  obtain ⟨b1, b2, ht⟩ := runFrames_progress instr obs2 (runFrames instr obs1 initLiveState)
  have h0 : initLiveState.current_step = 0 := rfl
  refine ⟨b1, by omega, ht⟩

/-- `_are_similar_descriptions` answers `True` exactly when the Jaccard score
computed by `_calculate_match_score` strictly exceeds `0.5` (on an empty
token set both give the non-merging answer). -/
theorem are_similar_iff (d1 d2 : String) :
    are_similar_descriptions d1 d2 = true
      ↔ (0.5 : ℚ) < calculate_match_score d1 d2 := by
  unfold are_similar_descriptions calculate_match_score
  by_cases h : tokenSet d1 = ∅ ∨ tokenSet d2 = ∅
  · rw [if_pos h, if_pos h]
    norm_num
  · rw [if_neg h, if_neg h]
    simp

/-- The walk of the code merger coincides with the walk phrased through the
similarity score, step by step. -/
theorem mergeAux_eq_spec : ∀ (l : List DetectedAction) (last : DetectedAction),
    mergeAux last l = mergeSpecAux last l := by
  intro l
  induction l with
  | nil => intro last; rfl
  | cons a rest ih =>
    intro last
    simp only [mergeAux, mergeSpecAux]
    by_cases hg : a.timestamp_start - last.timestamp_end < 10
    · by_cases hs : (0.5 : ℚ) < calculate_match_score last.description a.description
      · rw [if_pos ⟨hg, (are_similar_iff _ _).mpr hs⟩, if_pos ⟨hg, hs⟩]
        exact ih _
      · rw [if_neg fun hc => hs ((are_similar_iff _ _).mp hc.2),
          if_neg fun hc => hs hc.2]
        rw [ih a]
    · rw [if_neg fun hc => hg hc.1, if_neg fun hc => hg hc.1]
      rw [ih a]

/-- Each interval the merger emits keeps the description and start time of
the action that opened it, and the emitted intervals appear in the order
those opening actions appear in the input. -/
theorem mergeAux_key_sublist : ∀ (l : List DetectedAction) (last : DetectedAction),
    ((mergeAux last l).map mergeKey).Sublist (mergeKey last :: l.map mergeKey) := by
  intro l
  induction l with
  | nil => intro last; simp [mergeAux]
  | cons a rest ih =>
    intro last
    simp only [mergeAux]
    split
    · refine (ih _).trans ?_
      have he : mergeKey { last with timestamp_end := a.timestamp_end } = mergeKey last := rfl
      rw [he, List.map_cons]
      exact List.Sublist.cons₂ _ (List.sublist_cons_self _ _)
    · simp only [List.map_cons]
      exact List.Sublist.cons₂ _ (ih a)

/-- C6: the merger is exactly the one-pass walk described by the spec — a
subsequent action is absorbed precisely when the gap to the open interval's
end is below 10 seconds and the similarity score of the two descriptions
strictly exceeds `0.5`, absorption extends only `timestamp_end`, empty input
yields empty output, and the emitted intervals (keyed by the retained
first description and start time) follow the input order. -/
theorem merge_walk_characterization (l : List DetectedAction) :
    merge_similar_actions l = mergeSpec l
    ∧ merge_similar_actions ([] : List DetectedAction) = []
    ∧ ((merge_similar_actions l).map mergeKey).Sublist (l.map mergeKey) := by
  refine ⟨?_, rfl, ?_⟩
  · cases l with
    | nil => rfl
    | cons a rest => exact mergeAux_eq_spec rest a
  · cases l with
    | nil => simp [merge_similar_actions]
    | cons a rest => exact mergeAux_key_sublist rest a

end VideoUnderstanding
